import Mathlib

/-!
Shallow embedding of `src/ib_bw_mon.py`: counter resolution, wrap-safe
deltas, rate computation, bounded rate history, axis scaling, bar heights,
and the view-mode toggles of the curses loop.  Python integers are `Int`
(arbitrary precision, as in CPython); floating point quantities are
modelled over `ℚ`; the filesystem is a list of filenames present in the
counters directory.
-/

namespace IbBwMon

/-- Alias list probed for the transmit data counter (`CounterPaths.__init__`). -/
def txDataNames : List String := ["port_xmit_data", "tx_bytes"]

/-- Alias list probed for the receive data counter. -/
def rxDataNames : List String := ["port_rcv_data", "rx_bytes"]

/-- Alias list probed for the transmit packet counter. -/
def txPktNames : List String := ["port_xmit_packets", "port_xmit_pkts", "tx_packets"]

/-- Alias list probed for the receive packet counter. -/
def rxPktNames : List String := ["port_rcv_packets", "port_rcv_pkts", "rx_packets"]

/-- Embedding of `first_existing(base, names)`: the first name in `names`
that exists in the counters directory `fs` (paths are reduced to their
basenames, since all probes are within one directory). -/
def first_existing (fs : List String) (names : List String) : Option String :=
  names.find? (fun n => fs.contains n)

/-- Embedding of the `CounterPaths` object after `__init__` has run:
the four resolved counter filenames (`None` when no alias exists),
the `is_ib` constructor argument and the derived `data_is_words` flag. -/
structure CounterPaths where
  is_ib : Bool
  tx_data : Option String
  rx_data : Option String
  tx_pkts : Option String
  rx_pkts : Option String
  data_is_words : Bool
deriving DecidableEq, Repr

/-- Embedding of `CounterPaths.__init__(base, is_ib)`: resolve each of the
four counters through its alias list and set `data_is_words` exactly when
the chosen data counter filename is the word-granularity canonical name
(`port_xmit_data` / `port_rcv_data`). -/
def mkCounterPaths (fs : List String) (is_ib : Bool) : CounterPaths :=
  let tx_data := first_existing fs txDataNames
  let rx_data := first_existing fs rxDataNames
  let tx_pkts := first_existing fs txPktNames
  let rx_pkts := first_existing fs rxPktNames
  { is_ib := is_ib
    tx_data := tx_data
    rx_data := rx_data
    tx_pkts := tx_pkts
    rx_pkts := rx_pkts
    data_is_words :=
      (tx_data == some "port_xmit_data") || (rx_data == some "port_rcv_data") }

/-- Python `str.startswith`, at the level of character lists. -/
def listStarts : List Char → List Char → Bool
  | [], _ => true
  | _ :: _, [] => false
  | a :: as, b :: bs => a == b && listStarts as bs

/-- Embedding of `(link_layer or "").lower().startswith("infiniband")`
from `resolve_counters`; `.lower()` is modelled as character-wise
`Char.toLower` over the string's characters. -/
def isIbOf (link_layer : Option String) : Bool :=
  listStarts "infiniband".data ((link_layer.getD "").data.map Char.toLower)

/-- State of the sysfs tree seen by `resolve_counters`: whether the
counters directory exists, which counter files it holds, and the two
best-effort link metadata strings. -/
structure SysFS where
  countersDirExists : Bool
  counterFiles : List String
  link_layer : Option String
  rate : Option String

/-- Failure modes of `resolve_counters` (both raised as
`FileNotFoundError` in the source, with distinct messages). -/
inductive ResolveError where
  | dirNotFound
  | missingCounters (missing : List String)
deriving DecidableEq, Repr

/-- Missing-metric name list built by `resolve_counters` when at least one
of the four counters did not resolve, in the source's order. -/
def requiredMissing (p : CounterPaths) : List String :=
  (if p.tx_data.isNone then ["tx_data"] else []) ++
  (if p.rx_data.isNone then ["rx_data"] else []) ++
  (if p.tx_pkts.isNone then ["tx_pkts"] else []) ++
  (if p.rx_pkts.isNone then ["rx_pkts"] else [])

/-- Embedding of `resolve_counters(dev, port)`: fail if the counters
directory is missing; otherwise build `CounterPaths` and fail with the
list of missing metric names unless all four counters resolved. -/
def resolve_counters (sys : SysFS) : Except ResolveError CounterPaths :=
  if sys.countersDirExists then
    let p := mkCounterPaths sys.counterFiles (isIbOf sys.link_layer)
    if p.tx_data.isSome && p.rx_data.isSome && p.tx_pkts.isSome && p.rx_pkts.isSome then
      Except.ok p
    else
      Except.error (ResolveError.missingCounters (requiredMissing p))
  else
    Except.error ResolveError.dirNotFound

/-- Raw counter 4-tuple `(tx_data, rx_data, tx_pkts, rx_pkts)` as returned
by `read_counters`. -/
abbrev Cnt4 := Int × Int × Int × Int

/-- Per-field body of the loop in `diff_counters`: plain difference, or
wrap-corrected through `1 << 64` when negative. -/
def diff1 (p c : Int) : Int :=
  let d := c - p
  if d < 0 then (c + 2 ^ 64) - p else d

/-- Embedding of `diff_counters(prev, cur)`. -/
def diff_counters (prev cur : Cnt4) : Cnt4 :=
  (diff1 prev.1 cur.1, diff1 prev.2.1 cur.2.1,
   diff1 prev.2.2.1 cur.2.2.1, diff1 prev.2.2.2 cur.2.2.2)

/-- Embedding of `dt = max(1e-9, now - prev_t)` from the sampling branch
of `draw`. -/
def clampDt (elapsed : ℚ) : ℚ := max (1 / 10 ^ 9) elapsed

/-- Rate conversion: a delta divided by the clamped elapsed time, as in
`tx_Bps = d_txB / dt` with `dt = max(1e-9, now - prev_t)`. -/
def toRate (delta elapsed : ℚ) : ℚ := delta / clampDt elapsed

/-- Rates produced by one successful sampling tick. -/
structure Rates where
  tx_Bps : ℚ
  rx_Bps : ℚ
  tx_pps : ℚ
  rx_pps : ℚ
deriving DecidableEq, Repr

/-- Embedding of the delta-to-rate block of `draw` (given the already
clamped `dt`): wrap-safe deltas, the `if is_ib` ×4 scaling of the two data
deltas, then division by `dt`. -/
def computeRates (is_ib : Bool) (prev cur : Cnt4) (dt : ℚ) : Rates :=
  let d := diff_counters prev cur
  let d_txB := if is_ib then 4 * d.1 else d.1
  let d_rxB := if is_ib then 4 * d.2.1 else d.2.1
  { tx_Bps := (d_txB : ℚ) / dt
    rx_Bps := (d_rxB : ℚ) / dt
    tx_pps := (d.2.2.1 : ℚ) / dt
    rx_pps := (d.2.2.2 : ℚ) / dt }

/-- Last `cap` elements of a list (all of it when shorter). -/
def keepLast (cap : Nat) (l : List ℚ) : List ℚ :=
  l.drop (l.length - cap)

/-- CPython `deque(maxlen=cap).append(x)`: append on the right, then
discard from the left whatever exceeds `cap`. -/
def dequeAppend (cap : Nat) (h : List ℚ) (x : ℚ) : List ℚ :=
  keepLast cap (h ++ [x])

/-- History capacity of `rx_hist` / `tx_hist` (`deque(maxlen=4096)`). -/
def HIST_CAP : Nat := 4096

/-- Mutable loop state of `draw` relevant to sampling: the last-good raw
snapshot and its timestamp, the current rate variables (`none` before the
first successful sample, when the Python locals are still unbound), and
the two history deques. -/
structure EngineState where
  prev : Cnt4
  prev_t : ℚ
  rates : Option Rates
  rx_hist : List ℚ
  tx_hist : List ℚ
deriving DecidableEq, Repr

/-- Outcome of `read_counters` on one tick: a fresh 4-tuple, or the
`RuntimeError` raised when any of the four reads fails. -/
inductive ReadResult where
  | ok (cur : Cnt4)
  | fail
deriving DecidableEq, Repr

/-- One sampling tick of `draw` (the `if not paused and not fast_switch`
block): on a successful read the rates are recomputed and `prev`/`prev_t`
advance; on a failed read the `except` clause keeps all previous values;
either way the current `rx_Bps`/`tx_Bps` are appended to the histories
("always append to history so the graph scrolls").  If a read fails before
any rate was ever computed, the append raises `NameError` on the unbound
local, modelled as `none` (crash). -/
def tickStep (is_ib : Bool) (s : EngineState) (r : ReadResult) (now : ℚ) :
    Option EngineState :=
  match r with
  | ReadResult.ok cur =>
    let dt := clampDt (now - s.prev_t)
    let rt := computeRates is_ib s.prev cur dt
    some { prev := cur
           prev_t := now
           rates := some rt
           rx_hist := dequeAppend HIST_CAP s.rx_hist rt.rx_Bps
           tx_hist := dequeAppend HIST_CAP s.tx_hist rt.tx_Bps }
  | ReadResult.fail =>
    match s.rates with
    | none => none
    | some rt =>
      some { s with rx_hist := dequeAppend HIST_CAP s.rx_hist rt.rx_Bps
                    tx_hist := dequeAppend HIST_CAP s.tx_hist rt.tx_Bps }

/-- Run of the sampling loop over a list of tick events `(active, read,
now)`; `active = false` is a tick on which `paused` or `fast_switch`
suppressed sampling (histories untouched). -/
def runTicks (is_ib : Bool) : EngineState → List (Bool × ReadResult × ℚ) →
    Option EngineState
  | s, [] => some s
  | s, e :: es =>
    if e.1 then
      match tickStep is_ib s e.2.1 e.2.2 with
      | none => none
      | some s2 => runTicks is_ib s2 es
    else
      runTicks is_ib s es

/-- Display unit mode (`args.units`, the strings `'bits'` / `'bytes'`). -/
inductive UnitMode where
  | bits
  | bytes
deriving DecidableEq, Repr

/-- Embedding of `scaled(v)` in `draw_panel`: ×8 when displaying bits. -/
def scaledV (u : UnitMode) (v : ℚ) : ℚ :=
  match u with
  | UnitMode.bits => v * 8
  | UnitMode.bytes => v

/-- Pre-cap axis maximum of `draw_panel`: `maxv` starts at `1.0` and takes
every visible scaled sample that exceeds it. -/
def obsMax (u : UnitMode) (visible : List ℚ) : ℚ :=
  visible.foldl (fun m v => if scaledV u v > m then scaledV u v else m) 1

/-- Embedding of the `maxv` computation of `draw_panel` including the
link-capacity cap: when displaying bits with a truthy parsed link rate,
`link_bps = rate_gbps * 1e9` replaces `maxv` if `0 < link_bps < maxv`. -/
def scaleMax (u : UnitMode) (visible : List ℚ) (rate_gbps : Option ℚ) : ℚ :=
  let maxv := obsMax u visible
  match rate_gbps with
  | none => maxv
  | some g =>
    if u = UnitMode.bits ∧ g ≠ 0 then
      let link_bps := g * 10 ^ 9
      if 0 < link_bps ∧ link_bps < maxv then link_bps else maxv
    else maxv

/-- Python 3 `round` on an exact rational: round half to even. -/
def pyRound (x : ℚ) : ℤ :=
  let f := ⌊x⌋
  if x - f < 1 / 2 then f
  else if (1 : ℚ) / 2 < x - f then f + 1
  else if f % 2 = 0 then f else f + 1

/-- Embedding of the bar-height computation of `draw_panel`:
`h = int(round((v / maxv) * chart_h)); h = max(0, min(chart_h, h))`. -/
def barHeight (v maxv : ℚ) (chart_h : ℤ) : ℤ :=
  max 0 (min chart_h (pyRound (v / maxv * (chart_h : ℚ))))

/-- View-mode flags of `draw`: `data_mode` (raw-counter view) and
`info_mode` (GID/address-table view); both false is the Plot view. -/
structure ViewFlags where
  data_mode : Bool
  info_mode : Bool
deriving DecidableEq, Repr

/-- View-toggle input events: the `d`/`D` and `i`/`I` key branches of the
input loop in `draw`. -/
inductive Key where
  | d
  | i
deriving DecidableEq, Repr

/-- Embedding of the view-toggle key handling: toggle the pressed view's
flag and, when it turned on, force the other flag off. -/
def viewStep (s : ViewFlags) : Key → ViewFlags
  | Key.d =>
    let dm := !s.data_mode
    { data_mode := dm, info_mode := if dm then false else s.info_mode }
  | Key.i =>
    let im := !s.info_mode
    { data_mode := if im then false else s.data_mode, info_mode := im }

/-- Run of the view-toggle state machine from the default Plot state. -/
def runView (evs : List Key) : ViewFlags :=
  evs.foldl viewStep { data_mode := false, info_mode := false }

/-- Fold of `dequeAppend` over a sample sequence starting from the empty
history. -/
def histRun (cap : Nat) (xs : List ℚ) : List ℚ :=
  xs.foldl (dequeAppend cap) []

/-- An alias list resolves on filesystem `fs` when some name in it exists. -/
def hasAlias (fs names : List String) : Prop :=
  ∃ n, n ∈ names ∧ fs.contains n = true

/-- Raw counter in its 64-bit range (counters are unsigned and assumed to
wrap at the 64-bit boundary). -/
def inRange64 (t : Cnt4) : Prop :=
  (0 ≤ t.1 ∧ t.1 < 2 ^ 64) ∧ (0 ≤ t.2.1 ∧ t.2.1 < 2 ^ 64) ∧
  (0 ≤ t.2.2.1 ∧ t.2.2.1 < 2 ^ 64) ∧ (0 ≤ t.2.2.2 ∧ t.2.2.2 < 2 ^ 64)

/-- Specification of one delta field: plain difference when not wrapped,
wrap-corrected difference otherwise, and non-negative in both cases. -/
def fieldOk (p c d : Int) : Prop :=
  (p ≤ c → d = c - p) ∧ (c < p → d = (c + 2 ^ 64) - p) ∧ 0 ≤ d

lemma diff1_ok (p c : Int) (hp0 : 0 ≤ p) (hp : p < 2 ^ 64) (hc0 : 0 ≤ c)
    (hc : c < 2 ^ 64) : fieldOk p c (diff1 p c) := by
  have h64 : (2 : Int) ^ 64 = 18446744073709551616 := by norm_num
  rw [h64] at hp hc
  simp only [fieldOk, diff1, h64]
  split_ifs with h
  · exact ⟨fun hle => by omega, fun hlt => by omega, by omega⟩
  · exact ⟨fun hle => by omega, fun hlt => by omega, by omega⟩

/-- C3: for every pair of raw counter 4-tuples in the 64-bit range and
every field, the computed delta is `cur - prev` when `cur >= prev`, is
`(cur + 2^64) - prev` when `cur < prev`, and is non-negative in both
cases. -/
theorem diff_counters_spec (prev cur : Cnt4) (h1 : inRange64 prev)
    (h2 : inRange64 cur) :
    fieldOk prev.1 cur.1 (diff_counters prev cur).1 ∧
    fieldOk prev.2.1 cur.2.1 (diff_counters prev cur).2.1 ∧
    fieldOk prev.2.2.1 cur.2.2.1 (diff_counters prev cur).2.2.1 ∧
    fieldOk prev.2.2.2 cur.2.2.2 (diff_counters prev cur).2.2.2 := by
  obtain ⟨a1, a2, a3, a4⟩ := h1
  obtain ⟨b1, b2, b3, b4⟩ := h2
  exact ⟨diff1_ok _ _ a1.1 a1.2 b1.1 b1.2, diff1_ok _ _ a2.1 a2.2 b2.1 b2.2,
         diff1_ok _ _ a3.1 a3.2 b3.1 b3.2, diff1_ok _ _ a4.1 a4.2 b4.1 b4.2⟩

/-- Witness for C3: the spec's wrap scenario, a counter dropping from
`18446744073709551000` to `500`, yielding the wrap-corrected delta
`1116`. -/
theorem diff_counters_spec_witness :
    inRange64 ((18446744073709551000 : Int), 0, 0, 0) ∧
    fieldOk 18446744073709551000 500
      ((diff_counters (18446744073709551000, 0, 0, 0) (500, 0, 0, 0)).1) ∧
    (diff_counters (18446744073709551000, 0, 0, 0) (500, 0, 0, 0)).1 = 1116 :=
  ⟨by norm_num [inRange64],
   (diff_counters_spec (18446744073709551000, 0, 0, 0) (500, 0, 0, 0)
      (by norm_num [inRange64]) (by norm_num [inRange64])).1,
   by decide⟩

/-- C6: the rate computation divides each delta by the elapsed time
clamped below at `1e-9` seconds: the clamped denominator is always
strictly positive (so division by zero is impossible), the computed rate
times the clamped denominator gives back the delta, a degenerate tick with
identical timestamps yields `delta * 1e9`, and a successful tick of the
loop stores exactly the rates computed over the clamped elapsed time. -/
theorem rate_divides_by_clamped_dt (delta elapsed : ℚ) (is_ib : Bool)
    (s : EngineState) (cur : Cnt4) (now : ℚ) :
    0 < clampDt elapsed ∧
    toRate delta elapsed * clampDt elapsed = delta ∧
    toRate delta 0 = delta * 10 ^ 9 ∧
    (tickStep is_ib s (ReadResult.ok cur) now =
      let rt := computeRates is_ib s.prev cur (clampDt (now - s.prev_t))
      some { prev := cur
             prev_t := now
             rates := some rt
             rx_hist := dequeAppend HIST_CAP s.rx_hist rt.rx_Bps
             tx_hist := dequeAppend HIST_CAP s.tx_hist rt.tx_Bps }) := by
  have hpos : ∀ e : ℚ, 0 < clampDt e := fun e =>
    lt_of_lt_of_le (by norm_num) (le_max_left _ _)
  refine ⟨hpos elapsed, ?_, ?_, rfl⟩
  · exact div_mul_cancel₀ delta (ne_of_gt (hpos elapsed))
  · have h0 : clampDt 0 = 1 / 10 ^ 9 := by
      norm_num [clampDt]
    rw [toRate, h0]
    rw [div_eq_mul_inv]
    norm_num

/-- C7: the drawn bar height equals `round(v / scaleMax * chartHeight)`
clamped into `[0, chartHeight]`; in particular it is never negative and
never exceeds `chartHeight`. -/
theorem barHeight_spec (v maxv : ℚ) (chart_h : ℤ) (hv : 0 ≤ v)
    (hm : 0 < maxv) (hh : 0 < chart_h) :
    barHeight v maxv chart_h =
      max 0 (min chart_h (pyRound (v / maxv * (chart_h : ℚ)))) ∧
    0 ≤ barHeight v maxv chart_h ∧
    barHeight v maxv chart_h ≤ chart_h := by
  refine ⟨rfl, le_max_left _ _, ?_⟩
  exact max_le (le_of_lt hh) (min_le_left _ _)

/-- Witness for C7: sample `1` with scale maximum `2` on a chart of height
`10` draws a bar of height `5`, inside `[0, 10]`. -/
theorem barHeight_spec_witness :
    (0 : ℚ) ≤ 1 ∧ (0 : ℚ) < 2 ∧ (0 : ℤ) < 10 ∧
    (0 ≤ barHeight 1 2 10 ∧ barHeight 1 2 10 ≤ 10) ∧
    barHeight 1 2 10 = 5 :=
  ⟨by norm_num, by norm_num, by norm_num,
   (barHeight_spec 1 2 10 (by norm_num) (by norm_num) (by norm_num)).2,
   by norm_num [barHeight, pyRound]⟩

lemma keepLast_of_le (cap : Nat) (l : List ℚ) (h : l.length ≤ cap) :
    keepLast cap l = l := by
  simp [keepLast, Nat.sub_eq_zero_of_le h]

lemma keepLast_cons_of_ge (cap : Nat) (y : ℚ) (l : List ℚ)
    (h : cap ≤ l.length) : keepLast cap (y :: l) = keepLast cap l := by
  unfold keepLast
  simp only [List.length_cons]
  have hstep : l.length + 1 - cap = (l.length - cap) + 1 := by omega
  rw [hstep, List.drop_succ_cons]

lemma keepLast_append_keepLast (cap : Nat) :
    ∀ a b : List ℚ, keepLast cap (keepLast cap a ++ b) = keepLast cap (a ++ b) := by
  intro a
  induction a with
  | nil => intro b; simp [keepLast]
  | cons y a ih =>
    intro b
    by_cases hc : (y :: a).length ≤ cap
    · rw [keepLast_of_le cap (y :: a) hc]
    · have hca : cap ≤ a.length := by
        simp only [List.length_cons] at hc
        omega
      have hcab : cap ≤ (a ++ b).length := by
        simp only [List.length_append]
        omega
      rw [keepLast_cons_of_ge cap y a hca, List.cons_append,
          keepLast_cons_of_ge cap y (a ++ b) hcab, ih b]

lemma length_keepLast (cap : Nat) (l : List ℚ) :
    (keepLast cap l).length = min cap l.length := by
  simp only [keepLast, List.length_drop]
  omega

lemma length_dequeAppend (cap : Nat) (h : List ℚ) (x : ℚ) :
    (dequeAppend cap h x).length = min cap (h.length + 1) := by
  simp [dequeAppend, length_keepLast]

lemma foldl_dequeAppend_eq (cap : Nat) :
    ∀ (xs acc : List ℚ), acc.length ≤ cap →
      xs.foldl (dequeAppend cap) acc = keepLast cap (acc ++ xs) := by
  intro xs
  induction xs with
  | nil => intro acc h; simp [keepLast_of_le cap acc h]
  | cons x xs ih =>
    intro acc h
    have hlen : (dequeAppend cap acc x).length ≤ cap := by
      rw [length_dequeAppend]
      omega
    calc (x :: xs).foldl (dequeAppend cap) acc
        = xs.foldl (dequeAppend cap) (dequeAppend cap acc x) := rfl
      _ = keepLast cap (dequeAppend cap acc x ++ xs) := ih _ hlen
      _ = keepLast cap ((acc ++ [x]) ++ xs) :=
          keepLast_append_keepLast cap (acc ++ [x]) xs
      _ = keepLast cap (acc ++ x :: xs) := by
          rw [List.append_assoc]
          rfl

lemma histRun_eq_keepLast (cap : Nat) (xs : List ℚ) :
    histRun cap xs = keepLast cap xs := by
  have h := foldl_dequeAppend_eq cap xs [] (by simp)
  simpa [histRun] using h

/-- C5: after appending `capacity + k` samples to the empty history, the
buffer holds exactly the most recent `capacity` samples in chronological
order (oldest first); the length of any run is `min capacity total`, so
the capacity is never exceeded; and an append to a full buffer evicts
exactly the oldest entry. -/
theorem rateHistory_ring (cap k : Nat) (hcap : 0 < cap) (xs : List ℚ)
    (hlen : xs.length = cap + k) :
    histRun cap xs = xs.drop k ∧
    (histRun cap xs).length = cap ∧
    (∀ ys : List ℚ, (histRun cap ys).length = min cap ys.length) ∧
    (∀ (h : List ℚ) (x : ℚ), h.length = cap →
       dequeAppend cap h x = h.tail ++ [x]) := by
  have hrun : ∀ ys : List ℚ, (histRun cap ys).length = min cap ys.length := by
    intro ys
    rw [histRun_eq_keepLast, length_keepLast]
  refine ⟨?_, ?_, hrun, ?_⟩
  · rw [histRun_eq_keepLast]
    simp only [keepLast, hlen]
    congr 1
    omega
  · rw [hrun, hlen]
    omega
  · intro h x hfull
    cases h with
    | nil =>
      simp only [List.length_nil] at hfull
      exact absurd hfull.symm (by omega)
    | cons a t =>
      have hlen2 : ((a :: t) ++ [x]).length - cap = 1 := by
        simp only [List.length_append, List.length_cons, List.length_nil] at hfull ⊢
        omega
      show keepLast cap ((a :: t) ++ [x]) = (a :: t).tail ++ [x]
      unfold keepLast
      rw [hlen2, List.cons_append, List.drop_one, List.tail_cons, List.tail_cons]

/-- Witness for C5: capacity `2` with `3 = 2 + 1` appends keeps `[2, 3]`,
of length `2`, and appending to the full `[1, 2]` evicts exactly `1`. -/
theorem rateHistory_ring_witness :
    (0 : Nat) < 2 ∧ ([(1 : ℚ), 2, 3].length = 2 + 1) ∧
    histRun 2 [(1 : ℚ), 2, 3] = [2, 3] ∧
    dequeAppend 2 [(1 : ℚ), 2] 3 = [2, 3] :=
  ⟨by norm_num, by norm_num,
   (rateHistory_ring 2 1 (by norm_num) [1, 2, 3] (by norm_num)).1,
   (rateHistory_ring 2 1 (by norm_num) [1, 2, 3] (by norm_num)).2.2.2
     [1, 2] 3 (by norm_num)⟩

lemma tickStep_preserves_len (is_ib : Bool) (s s2 : EngineState)
    (r : ReadResult) (now : ℚ) (hlen : s.rx_hist.length = s.tx_hist.length)
    (hstep : tickStep is_ib s r now = some s2) :
    s2.rx_hist.length = s2.tx_hist.length := by
  cases r with
  | ok cur =>
    simp only [tickStep, Option.some_inj] at hstep
    subst hstep
    simp [length_dequeAppend, hlen]
  | fail =>
    cases hrt : s.rates with
    | none => simp [tickStep, hrt] at hstep
    | some rt =>
      simp only [tickStep, hrt, Option.some_inj] at hstep
      subst hstep
      simp [length_dequeAppend, hlen]

/-- C10: the receive and transmit histories always have the same length:
every tick either appends one value to each (sampling tick, successful or
failed read) or touches neither (paused / fast-switch tick), so the
invariant is preserved over any run of the loop. -/
theorem hist_lengths_aligned (is_ib : Bool) :
    ∀ (evs : List (Bool × ReadResult × ℚ)) (s s2 : EngineState),
      s.rx_hist.length = s.tx_hist.length →
      runTicks is_ib s evs = some s2 →
      s2.rx_hist.length = s2.tx_hist.length := by
  intro evs
  induction evs with
  | nil =>
    intro s s2 hlen hrun
    simp only [runTicks, Option.some_inj] at hrun
    subst hrun
    exact hlen
  | cons e es ih =>
    intro s s2 hlen hrun
    by_cases ha : e.1 = true
    · simp only [runTicks, ha, if_true] at hrun
      cases hstep : tickStep is_ib s e.2.1 e.2.2 with
      | none => simp [hstep] at hrun
      | some s1 =>
        rw [hstep] at hrun
        exact ih s1 s2 (tickStep_preserves_len is_ib s s1 e.2.1 e.2.2 hlen hstep) hrun
    · simp only [runTicks, ha, if_false, Bool.false_eq_true] at hrun
      exact ih s s2 hlen hrun

/-- Witness for C10: from a fresh engine state, one successful sampling
tick followed by one inactive tick leaves both histories at length one. -/
theorem hist_lengths_aligned_witness :
    runTicks false
        { prev := (0, 0, 0, 0), prev_t := 0, rates := none,
          rx_hist := [], tx_hist := [] }
        [(true, ReadResult.ok (1, 2, 3, 4), 1), (false, ReadResult.fail, 2)] =
      some { prev := (1, 2, 3, 4), prev_t := 1,
             rates := some { tx_Bps := 1, rx_Bps := 2, tx_pps := 3, rx_pps := 4 },
             rx_hist := [2], tx_hist := [1] } ∧
    ([(2 : ℚ)].length = [(1 : ℚ)].length) := by
  have hrun : runTicks false
      { prev := (0, 0, 0, 0), prev_t := 0, rates := none,
        rx_hist := [], tx_hist := [] }
      [(true, ReadResult.ok (1, 2, 3, 4), 1), (false, ReadResult.fail, 2)] =
      some { prev := (1, 2, 3, 4), prev_t := 1,
             rates := some { tx_Bps := 1, rx_Bps := 2, tx_pps := 3, rx_pps := 4 },
             rx_hist := [2], tx_hist := [1] } := by
    norm_num [runTicks, tickStep, computeRates, diff_counters, diff1, clampDt,
              dequeAppend, keepLast, HIST_CAP]
  refine ⟨hrun, ?_⟩
  have h := hist_lengths_aligned false
      [(true, ReadResult.ok (1, 2, 3, 4), 1), (false, ReadResult.fail, 2)]
      { prev := (0, 0, 0, 0), prev_t := 0, rates := none,
        rx_hist := [], tx_hist := [] }
      { prev := (1, 2, 3, 4), prev_t := 1,
        rates := some { tx_Bps := 1, rx_Bps := 2, tx_pps := 3, rx_pps := 4 },
        rx_hist := [2], tx_hist := [1] } rfl hrun
  exact h

lemma viewStep_mutex (s : ViewFlags) (k : Key)
    (h : ¬(s.data_mode = true ∧ s.info_mode = true)) :
    ¬((viewStep s k).data_mode = true ∧ (viewStep s k).info_mode = true) := by
  rcases s with ⟨d, i⟩
  cases k <;> cases d <;> cases i <;> simp_all [viewStep]

lemma runView_mutex (evs : List Key) :
    ¬((runView evs).data_mode = true ∧ (runView evs).info_mode = true) := by
  have hgen : ∀ (l : List Key) (s : ViewFlags),
      ¬(s.data_mode = true ∧ s.info_mode = true) →
      ¬((l.foldl viewStep s).data_mode = true ∧
        (l.foldl viewStep s).info_mode = true) := by
    intro l
    induction l with
    | nil => intro s hs; exact hs
    | cons k l ih => intro s hs; exact ih (viewStep s k) (viewStep_mutex s k hs)
  exact hgen evs { data_mode := false, info_mode := false } (by simp)

/-- C9: starting from the default Plot state, the Raw-counter view and the
Address view are never simultaneously active after any sequence of toggle
events; toggling a view on deactivates the other; and toggling the key of
the currently active view returns to Plot (both flags off). -/
theorem view_toggle_spec (evs : List Key) :
    ¬((runView evs).data_mode = true ∧ (runView evs).info_mode = true) ∧
    ((runView evs).data_mode = true →
      viewStep (runView evs) Key.d = { data_mode := false, info_mode := false }) ∧
    ((runView evs).info_mode = true →
      viewStep (runView evs) Key.i = { data_mode := false, info_mode := false }) ∧
    (∀ s : ViewFlags, (viewStep s Key.d).data_mode = true →
      (viewStep s Key.d).info_mode = false) ∧
    (∀ s : ViewFlags, (viewStep s Key.i).info_mode = true →
      (viewStep s Key.i).data_mode = false) := by
  have hmx := runView_mutex evs
  refine ⟨hmx, ?_, ?_, ?_, ?_⟩
  · intro hd
    rcases hs : runView evs with ⟨d, i⟩
    rw [hs] at hd hmx
    cases d <;> cases i <;> simp_all [viewStep]
  · intro hi
    rcases hs : runView evs with ⟨d, i⟩
    rw [hs] at hi hmx
    cases d <;> cases i <;> simp_all [viewStep]
  · intro s
    rcases s with ⟨d, i⟩
    cases d <;> cases i <;> simp [viewStep]
  · intro s
    rcases s with ⟨d, i⟩
    cases d <;> cases i <;> simp [viewStep]

/-- Witness for C9: after pressing `d` once the Raw view is active, and
pressing `d` again returns to Plot. -/
theorem view_toggle_spec_witness :
    (runView [Key.d]).data_mode = true ∧
    viewStep (runView [Key.d]) Key.d =
      { data_mode := false, info_mode := false } :=
  ⟨by decide, (view_toggle_spec [Key.d]).2.1 (by decide)⟩

/-- Engine state exhibiting C2's divergence: one good sample (rates `5`
rx / `7` tx) already recorded, histories of length one. -/
def cexStateC2 : EngineState :=
  { prev := (0, 0, 0, 0), prev_t := 0,
    rates := some { tx_Bps := 7, rx_Bps := 5, tx_pps := 1, rx_pps := 1 },
    rx_hist := [5], tx_hist := [7] }

/-- Counterexample to C2 as stated: on a tick whose read fails, the loop
does append a sample to each history (the retained previous rates), so the
histories grow from length `1` to length `2` — the claim's "no sample is
appended to the rate history for that tick" is false. -/
theorem failed_tick_appends_cex :
    tickStep true cexStateC2 ReadResult.fail 1 =
      some { prev := (0, 0, 0, 0), prev_t := 0,
             rates := some { tx_Bps := 7, rx_Bps := 5, tx_pps := 1, rx_pps := 1 },
             rx_hist := [5, 5], tx_hist := [7, 7] } ∧
    ([(5 : ℚ), 5].length = cexStateC2.rx_hist.length + 1) := by
  constructor
  · rfl
  · rfl

/-- C2 as amended: on a tick whose read fails after at least one
successful sample, the loop does not crash, the last-good snapshot, its
timestamp and the rate values are all retained unchanged, and the retained
previous rate values are appended to both histories (one sample per tick,
so the graph keeps scrolling; no zero or negative spike is recorded). -/
theorem failed_tick_keeps_state (is_ib : Bool) (s : EngineState) (now : ℚ)
    (rt : Rates) (h : s.rates = some rt) :
    tickStep is_ib s ReadResult.fail now =
      some { s with rx_hist := dequeAppend HIST_CAP s.rx_hist rt.rx_Bps
                    tx_hist := dequeAppend HIST_CAP s.tx_hist rt.tx_Bps } ∧
    ∀ s2, tickStep is_ib s ReadResult.fail now = some s2 →
      s2.prev = s.prev ∧ s2.prev_t = s.prev_t ∧ s2.rates = s.rates ∧
      s2.rx_hist.length = min HIST_CAP (s.rx_hist.length + 1) ∧
      s2.tx_hist.length = min HIST_CAP (s.tx_hist.length + 1) := by
  constructor
  · simp [tickStep, h]
  · intro s2 hstep
    simp only [tickStep, h, Option.some_inj] at hstep
    subst hstep
    simp [length_dequeAppend, h]

/-- Witness for C2's amended theorem at the concrete state of the
counterexample. -/
theorem failed_tick_keeps_state_witness :
    cexStateC2.rates =
      some { tx_Bps := 7, rx_Bps := 5, tx_pps := 1, rx_pps := 1 } ∧
    tickStep false cexStateC2 ReadResult.fail 3 =
      some { cexStateC2 with
             rx_hist := dequeAppend HIST_CAP cexStateC2.rx_hist 5
             tx_hist := dequeAppend HIST_CAP cexStateC2.tx_hist 7 } :=
  ⟨rfl,
   (failed_tick_keeps_state false cexStateC2 3
     { tx_Bps := 7, rx_Bps := 5, tx_pps := 1, rx_pps := 1 } rfl).1⟩

/-- Sysfs state exhibiting C1's divergence: the word-granularity canonical
data counter files are present (so `data_is_words` is true) but the link
layer is not InfiniBand (so `is_ib` is false). -/
def cexSysC1 : SysFS :=
  { countersDirExists := true
    counterFiles := ["port_xmit_data", "port_rcv_data",
                     "port_xmit_packets", "port_rcv_packets"]
    link_layer := some "Ethernet"
    rate := none }

/-- Counterexample to C1 as stated: a resolution whose data counters are
word-granularity (`data_is_words = true`) but whose ×4 multiplier is NOT
applied, because the multiplier is gated on `is_ib` (link layer), which is
false here: a transmit delta of `100` over one second yields a byte rate
of `100`, not `400`. -/
theorem words_flag_not_governing_cex :
    (mkCounterPaths cexSysC1.counterFiles (isIbOf cexSysC1.link_layer)).data_is_words
      = true ∧
    (mkCounterPaths cexSysC1.counterFiles (isIbOf cexSysC1.link_layer)).is_ib
      = false ∧
    resolve_counters cexSysC1 =
      Except.ok (mkCounterPaths cexSysC1.counterFiles (isIbOf cexSysC1.link_layer)) ∧
    (computeRates
        (mkCounterPaths cexSysC1.counterFiles (isIbOf cexSysC1.link_layer)).is_ib
        (0, 0, 0, 0) (100, 0, 0, 0) 1).tx_Bps = 100 ∧
    (computeRates
        (mkCounterPaths cexSysC1.counterFiles (isIbOf cexSysC1.link_layer)).is_ib
        (0, 0, 0, 0) (100, 0, 0, 0) 1).tx_Bps ≠ 400 := by
  have hib : (mkCounterPaths cexSysC1.counterFiles (isIbOf cexSysC1.link_layer)).is_ib
      = false := by decide
  refine ⟨by decide, hib, rfl, ?_, ?_⟩
  · rw [hib]
    norm_num [computeRates, diff_counters, diff1]
  · rw [hib]
    norm_num [computeRates, diff_counters, diff1]

/-- C1 as amended: the ×4 multiplier on the transmit and receive data
deltas (and only the data deltas, never the packet deltas) is applied if
and only if the `is_ib` flag is set, i.e. the link layer string starts
with "infiniband"; `data_is_words` is true exactly when the chosen data
counter filename matches the word-granularity canonical name, but that
flag does not govern the multiplier (it is computed and never read). -/
theorem data_scaling_by_is_ib (fs : List String) (b : Bool) (prev cur : Cnt4)
    (dt : ℚ) :
    (mkCounterPaths fs b).is_ib = b ∧
    ((mkCounterPaths fs b).data_is_words = true ↔
      (first_existing fs txDataNames = some "port_xmit_data" ∨
       first_existing fs rxDataNames = some "port_rcv_data")) ∧
    (computeRates b prev cur dt).tx_Bps =
      (((if b then 4 * (diff_counters prev cur).1
         else (diff_counters prev cur).1) : ℤ) : ℚ) / dt ∧
    (computeRates b prev cur dt).rx_Bps =
      (((if b then 4 * (diff_counters prev cur).2.1
         else (diff_counters prev cur).2.1) : ℤ) : ℚ) / dt ∧
    (computeRates b prev cur dt).tx_pps = ((diff_counters prev cur).2.2.1 : ℚ) / dt ∧
    (computeRates b prev cur dt).rx_pps = ((diff_counters prev cur).2.2.2 : ℚ) / dt := by
  refine ⟨rfl, ?_, rfl, rfl, rfl, rfl⟩
  simp [mkCounterPaths]

lemma obsMax_ge_init (u : UnitMode) :
    ∀ (l : List ℚ) (a : ℚ),
      a ≤ l.foldl (fun m v => if scaledV u v > m then scaledV u v else m) a := by
  intro l
  induction l with
  | nil => intro a; exact le_refl a
  | cons x l ih =>
    intro a
    rw [List.foldl_cons]
    refine le_trans ?_ (ih _)
    split_ifs with h
    · exact le_of_lt h
    · exact le_refl a

lemma obsMax_ge_mem (u : UnitMode) :
    ∀ (l : List ℚ) (a : ℚ) (v : ℚ), v ∈ l →
      scaledV u v ≤ l.foldl (fun m w => if scaledV u w > m then scaledV u w else m) a := by
  intro l
  induction l with
  | nil => intro a v hv; cases hv
  | cons x l ih =>
    intro a v hv
    rw [List.foldl_cons]
    rcases List.mem_cons.mp hv with h | h
    · subst h
      refine le_trans ?_ (obsMax_ge_init u l _)
      split_ifs with hgt
      · exact le_refl _
      · exact le_of_not_lt hgt
    · exact ih _ v h

/-- C4: the chart scale maximum is at least `1.0` and at least every
visible sample after unit conversion, except when displaying bits with a
known positive link-capacity ceiling smaller than the observed maximum, in
which case it equals the link's bits-per-second ceiling exactly. -/
theorem scaleMax_spec (u : UnitMode) (visible : List ℚ) (og : Option ℚ) :
    (1 ≤ obsMax u visible ∧ ∀ v ∈ visible, scaledV u v ≤ obsMax u visible) ∧
    (∀ g, og = some g → u = UnitMode.bits → 0 < g →
       g * 10 ^ 9 < obsMax u visible →
       scaleMax u visible og = g * 10 ^ 9) ∧
    ((∀ g, og = some g → u = UnitMode.bits → 0 < g →
        g * 10 ^ 9 < obsMax u visible → False) →
       scaleMax u visible og = obsMax u visible) := by
  refine ⟨⟨obsMax_ge_init u visible 1, fun v hv => obsMax_ge_mem u visible 1 v hv⟩,
          ?_, ?_⟩
  · intro g hg hu hgpos hlt
    subst hg
    subst hu
    simp only [scaleMax]
    split_ifs with h1 h2
    · rfl
    · exact absurd ⟨mul_pos hgpos (by norm_num), hlt⟩ h2
    · exact absurd ⟨by trivial, ne_of_gt hgpos⟩ h1
  · intro hnone
    cases og with
    | none => simp [scaleMax]
    | some g =>
      simp only [scaleMax]
      split_ifs with h1 h2
      · have hg : 0 < g := by nlinarith [h2.1]
        exact absurd (hnone g rfl h1.1 hg h2.2) id
      · rfl
      · rfl

/-- Witness for C4: displaying bits with one visible sample `2` (observed
maximum `16` bits/s) and a parsed link rate of `15e-9` Gb/s, i.e. a
ceiling of `15` bits/s below the observed maximum, the scale maximum
equals the ceiling exactly. -/
theorem scaleMax_spec_witness :
    ((15 : ℚ) / 10 ^ 9) * 10 ^ 9 < obsMax UnitMode.bits [2] ∧
    scaleMax UnitMode.bits [2] (some (15 / 10 ^ 9)) =
      ((15 : ℚ) / 10 ^ 9) * 10 ^ 9 :=
  ⟨by norm_num [obsMax, scaledV],
   (scaleMax_spec UnitMode.bits [2] (some (15 / 10 ^ 9))).2.1 (15 / 10 ^ 9)
     rfl rfl (by norm_num) (by norm_num [obsMax, scaledV])⟩

lemma requiredMissing_props (p : CounterPaths) :
    (requiredMissing p = [] ↔
      (p.tx_data.isSome = true ∧ p.rx_data.isSome = true ∧
       p.tx_pkts.isSome = true ∧ p.rx_pkts.isSome = true)) ∧
    ("tx_data" ∈ requiredMissing p ↔ ¬p.tx_data.isSome = true) ∧
    ("rx_data" ∈ requiredMissing p ↔ ¬p.rx_data.isSome = true) ∧
    ("tx_pkts" ∈ requiredMissing p ↔ ¬p.tx_pkts.isSome = true) ∧
    ("rx_pkts" ∈ requiredMissing p ↔ ¬p.rx_pkts.isSome = true) := by
  rcases p with ⟨ib, otx, orx, otp, orp, w⟩
  cases otx <;> cases orx <;> cases otp <;> cases orp <;> simp [requiredMissing]

/-- C8: resolution fails with the directory error when the counters
directory is missing; given the directory, it succeeds (returning the
fully resolved paths, all four set) exactly when every one of the four
required counters is available under some recognized alias, and otherwise
fails before any sampling with a missing-counters error whose metric-name
list is non-empty and contains each of the four metric names exactly when
that metric could not be resolved. -/
theorem resolve_counters_spec (sys : SysFS) :
    (sys.countersDirExists = false →
      resolve_counters sys = Except.error ResolveError.dirNotFound) ∧
    (sys.countersDirExists = true →
      ((hasAlias sys.counterFiles txDataNames ∧ hasAlias sys.counterFiles rxDataNames ∧
        hasAlias sys.counterFiles txPktNames ∧ hasAlias sys.counterFiles rxPktNames) →
         resolve_counters sys =
           Except.ok (mkCounterPaths sys.counterFiles (isIbOf sys.link_layer)) ∧
         (mkCounterPaths sys.counterFiles (isIbOf sys.link_layer)).tx_data.isSome = true ∧
         (mkCounterPaths sys.counterFiles (isIbOf sys.link_layer)).rx_data.isSome = true ∧
         (mkCounterPaths sys.counterFiles (isIbOf sys.link_layer)).tx_pkts.isSome = true ∧
         (mkCounterPaths sys.counterFiles (isIbOf sys.link_layer)).rx_pkts.isSome = true) ∧
      (¬(hasAlias sys.counterFiles txDataNames ∧ hasAlias sys.counterFiles rxDataNames ∧
         hasAlias sys.counterFiles txPktNames ∧ hasAlias sys.counterFiles rxPktNames) →
         resolve_counters sys =
           Except.error (ResolveError.missingCounters
             (requiredMissing (mkCounterPaths sys.counterFiles (isIbOf sys.link_layer)))) ∧
         requiredMissing (mkCounterPaths sys.counterFiles (isIbOf sys.link_layer)) ≠ []) ∧
      ("tx_data" ∈ requiredMissing (mkCounterPaths sys.counterFiles (isIbOf sys.link_layer)) ↔
        ¬hasAlias sys.counterFiles txDataNames) ∧
      ("rx_data" ∈ requiredMissing (mkCounterPaths sys.counterFiles (isIbOf sys.link_layer)) ↔
        ¬hasAlias sys.counterFiles rxDataNames) ∧
      ("tx_pkts" ∈ requiredMissing (mkCounterPaths sys.counterFiles (isIbOf sys.link_layer)) ↔
        ¬hasAlias sys.counterFiles txPktNames) ∧
      ("rx_pkts" ∈ requiredMissing (mkCounterPaths sys.counterFiles (isIbOf sys.link_layer)) ↔
        ¬hasAlias sys.counterFiles rxPktNames)) := by
  have hAtx : hasAlias sys.counterFiles txDataNames ↔
      (mkCounterPaths sys.counterFiles (isIbOf sys.link_layer)).tx_data.isSome = true := by
    simp [hasAlias, mkCounterPaths, first_existing, List.find?_isSome]
  have hArx : hasAlias sys.counterFiles rxDataNames ↔
      (mkCounterPaths sys.counterFiles (isIbOf sys.link_layer)).rx_data.isSome = true := by
    simp [hasAlias, mkCounterPaths, first_existing, List.find?_isSome]
  have hAtp : hasAlias sys.counterFiles txPktNames ↔
      (mkCounterPaths sys.counterFiles (isIbOf sys.link_layer)).tx_pkts.isSome = true := by
    simp [hasAlias, mkCounterPaths, first_existing, List.find?_isSome]
  have hArp : hasAlias sys.counterFiles rxPktNames ↔
      (mkCounterPaths sys.counterFiles (isIbOf sys.link_layer)).rx_pkts.isSome = true := by
    simp [hasAlias, mkCounterPaths, first_existing, List.find?_isSome]
  have hreq := requiredMissing_props (mkCounterPaths sys.counterFiles (isIbOf sys.link_layer))
  constructor
  · intro h
    simp [resolve_counters, h]
  · intro hdir
    refine ⟨?_, ?_, ?_, ?_, ?_, ?_⟩
    · rintro ⟨a, b, c, d⟩
      rw [hAtx] at a
      rw [hArx] at b
      rw [hAtp] at c
      rw [hArp] at d
      refine ⟨?_, a, b, c, d⟩
      simp [resolve_counters, hdir, a, b, c, d]
    · intro hnot
      have hcond : ¬(((mkCounterPaths sys.counterFiles (isIbOf sys.link_layer)).tx_data.isSome &&
          (mkCounterPaths sys.counterFiles (isIbOf sys.link_layer)).rx_data.isSome &&
          (mkCounterPaths sys.counterFiles (isIbOf sys.link_layer)).tx_pkts.isSome &&
          (mkCounterPaths sys.counterFiles (isIbOf sys.link_layer)).rx_pkts.isSome) = true) := by
        intro hc
        simp only [Bool.and_eq_true] at hc
        exact hnot ⟨hAtx.mpr hc.1.1.1, hArx.mpr hc.1.1.2, hAtp.mpr hc.1.2, hArp.mpr hc.2⟩
      constructor
      · simp only [resolve_counters, hdir, if_true]
        rw [if_neg hcond]
      · intro hempty
        exact hcond (by
          have h4 := hreq.1.mp hempty
          simp [h4.1, h4.2.1, h4.2.2.1, h4.2.2.2])
    · rw [hAtx]
      exact hreq.2.1
    · rw [hArx]
      exact hreq.2.2.1
    · rw [hAtp]
      exact hreq.2.2.2.1
    · rw [hArp]
      exact hreq.2.2.2.2

/-- Sysfs state for C8's witness: the counters directory exists but no
alias of the transmit data counter is present. -/
def cexSysC8 : SysFS :=
  { countersDirExists := true
    counterFiles := ["port_rcv_data", "port_xmit_packets", "port_rcv_packets"]
    link_layer := some "InfiniBand"
    rate := none }

/-- Witness for C8: with `port_xmit_data`/`tx_bytes` absent, resolution
fails with a non-empty missing-counters error, and the missing list names
`tx_data`. -/
theorem resolve_counters_spec_witness :
    resolve_counters cexSysC8 =
      Except.error (ResolveError.missingCounters
        (requiredMissing (mkCounterPaths cexSysC8.counterFiles (isIbOf cexSysC8.link_layer)))) ∧
    requiredMissing (mkCounterPaths cexSysC8.counterFiles (isIbOf cexSysC8.link_layer)) ≠ [] ∧
    requiredMissing (mkCounterPaths cexSysC8.counterFiles (isIbOf cexSysC8.link_layer)) =
      ["tx_data"] := by
  have hntx : ¬hasAlias cexSysC8.counterFiles txDataNames := by
    unfold hasAlias
    decide
  have h := ((resolve_counters_spec cexSysC8).2 rfl).2.1 (fun hall => hntx hall.1)
  exact ⟨h.1, h.2, by decide⟩

end IbBwMon
